import Mathlib

/-!
Shallow embedding of the ProKnow dose-summation engine
(`dose.py`, `main.py`) and proofs about its claims.

Modelling conventions:
* Numpy floating-point arithmetic is modelled with exact rationals (`ℚ`);
  the spec states its numeric contracts over real numbers.
* A 3-D dose cube is modelled as the flat list of its voxels: every numpy
  operation used by the code (`np.max`, scalar `*` and `/`, `.astype`,
  `np.sum(..., axis=0)` over equally-shaped arrays) acts voxel-wise.
* `astype(np.uint16)` truncates the float towards zero; for the
  non-negative in-range values produced here (`0 ≤ x ≤ peak` gives a value
  in `[0, 65535]`) no wrap-around can occur, so the cast is modelled as
  truncation towards zero (`truncToZero`).
* File-system effects (`os.listdir`, `pydicom.dcmread`, `save_as`) are an
  explicit environment `Env`; `perform_summation` returns both the path it
  saved (its side effect, `written`) and its Python return value
  (`retVal`).
-/

namespace ProKnow

/-- Truncation of a rational towards zero — the behaviour of numpy's
float-to-unsigned-int `astype` cast on in-range values. -/
def truncToZero (q : ℚ) : ℤ := if 0 ≤ q then ⌊q⌋ else -⌊-q⌋

/-- Model of `np.max` on a (non-empty) array, on the flat voxel list.
(`np.max` raises on an empty array; theorems carry non-emptiness or
positive-peak hypotheses so the `[]` branch is never relied upon.) -/
def npMax [LinearOrder α] [Inhabited α] : List α → α
  | [] => default
  | x :: xs => xs.foldl max x

/-- Constant `np.iinfo(np.uint16).max`. -/
def MAX_FIXED_VALUE : ℕ := 65535

/-- Scale factor that the quantizer stores:
`new_ds.DoseGridScaling = max_val / np.iinfo(np.uint16).max`
(`dose.py` line 60). -/
def doseScale (field : List ℚ) : ℚ := npMax field / (MAX_FIXED_VALUE : ℚ)

/-- Quantized pixel buffer:
`(summed_dose_array / max_val * np.iinfo(np.uint16).max).astype(np.uint16)`
(`dose.py` line 59). -/
def quantizeBuffer (field : List ℚ) : List ℤ :=
  field.map fun x => truncToZero (x / npMax field * (MAX_FIXED_VALUE : ℚ))

/-- The geometry-bearing fields of a loaded RTDOSE dataset, as read by
`check_same_geometry`, plus the `filename` used in its error message. -/
structure DoseDataset where
  Rows : ℤ
  Columns : ℤ
  NumberOfFrames : ℤ
  PixelSpacing : List ℚ
  ImageOrientationPatient : List ℚ
  ImagePositionPatient : List ℚ
  GridFrameOffsetVector : List ℚ
  filename : String
deriving DecidableEq

/-- The disjunction tested by `check_same_geometry` (`dose.py` lines 28-36):
`ds` differs from the reference `ref` in at least one of the seven
geometry fields. -/
def geomMismatch (ref ds : DoseDataset) : Prop :=
  ds.Rows ≠ ref.Rows ∨
  ds.Columns ≠ ref.Columns ∨
  ds.NumberOfFrames ≠ ref.NumberOfFrames ∨
  ds.PixelSpacing ≠ ref.PixelSpacing ∨
  ds.ImageOrientationPatient ≠ ref.ImageOrientationPatient ∨
  ds.ImagePositionPatient ≠ ref.ImagePositionPatient ∨
  ds.GridFrameOffsetVector ≠ ref.GridFrameOffsetVector

instance (ref ds : DoseDataset) : Decidable (geomMismatch ref ds) := by
  unfold geomMismatch; infer_instance

/-- Message of the `ValueError` raised by `check_same_geometry`:
`f"Geometry mismatch in dose file \x7bi + 1\x7d (\x7bds.filename\x7d)."`. -/
def mismatchMsg (n : ℕ) (fname : String) : String :=
  "Geometry mismatch in dose file " ++ toString n ++ " (" ++ fname ++ ")."

/-- Loop body of `check_same_geometry`: walks `datasets[1:]` with the
enumeration counter `i` (which starts at 1). -/
def checkFrom (ref : DoseDataset) : List DoseDataset → ℕ → Except String Unit
  | [], _ => .ok ()
  | ds :: rest, i =>
      if geomMismatch ref ds then .error (mismatchMsg (i + 1) ds.filename)
      else checkFrom ref rest (i + 1)

/-- Model of `check_same_geometry(datasets)` (`dose.py` lines 25-37).
The Python function receives the whole list and reads `datasets[0]`
(raising on an empty list); it is modelled here on a non-empty list given
as head `ref = datasets[0]` and tail `rest = datasets[1:]`. -/
def check_same_geometry (ref : DoseDataset) (rest : List DoseDataset) :
    Except String Unit :=
  checkFrom ref rest 1

/-- Model of `sum_doses(dose_arrays) = np.sum(dose_arrays, axis=0)`
(`dose.py` lines 40-41) on equally-shaped arrays: the element-wise fold
of `+` over the list of arrays. -/
def sum_doses (dose_arrays : List (List ℚ)) : List ℚ :=
  match dose_arrays with
  | [] => []
  | a :: rest => rest.foldl (fun acc b => List.zipWith (· + ·) acc b) a

/-- Output dataset built by `create_new_dose_dataset`: the template copy
with the fields the function overwrites. (The fresh UIDs and wall-clock
date fields are identity/time effects outside the claims and are not
modelled; the timestamp that reaches the filename is an `Env` input.) -/
structure NewDose where
  template : DoseDataset
  SeriesDescription : String
  PixelBuffer : List ℤ
  DoseGridScaling : ℚ
deriving DecidableEq

/-- Filename produced at `dose.py` line 67:
`f"RD_SummedDose_\x7bpatient_id\x7d_\x7btimestamp\x7d.dcm"`. -/
def mkSummedFilename (patient_id timestamp : String) : String :=
  "RD_SummedDose_" ++ patient_id ++ "_" ++ timestamp ++ ".dcm"

/-- Model of `create_new_dose_dataset(reference_ds, summed_dose_array,
patient_id)` (`dose.py` lines 44-68): raises (`.error`) when the summed
grid's maximum is zero, otherwise quantizes the grid and returns the new
dataset together with the suggested filename. -/
def create_new_dose_dataset (reference_ds : DoseDataset)
    (summed_dose_array : List ℚ) (patient_id timestamp : String) :
    Except String (NewDose × String) :=
  if npMax summed_dose_array = 0 then
    .error "Summed dose grid is all zeros. Cannot scale."
  else
    .ok ({ template := reference_ds
           SeriesDescription := "Summed Dose"
           PixelBuffer := quantizeBuffer summed_dose_array
           DoseGridScaling := doseScale summed_dose_array },
         mkSummedFilename patient_id timestamp)

/-- Check that the character list `sub` is an initial segment of `l`. -/
def listStartsWith : List Char → List Char → Bool
  | [], _ => true
  | _ :: _, [] => false
  | a :: as, b :: bs => a == b && listStartsWith as bs

/-- Python substring containment `sub in s`, on character lists. -/
def listContains (sub : List Char) : List Char → Bool
  | [] => listStartsWith sub []
  | c :: tl => listStartsWith sub (c :: tl) || listContains sub tl

/-- Python `str.lower()` (ASCII case folding, as in the filenames here). -/
def strLower (s : String) : String := String.mk (s.data.map Char.toLower)

/-- Python `sub in s` on strings. -/
def strContains (sub s : String) : Bool := listContains sub.data s.data

/-- The skip-check marker scan at `dose.py` line 80:
`any("summed" in f.lower() for f in os.listdir(output_dir))`. -/
def markerHit (names : List String) : Bool :=
  names.any fun f => strContains "summed" (strLower f)

/-- A filesystem path, split as the directory part (`os.path.dirname`)
and the base name; `os.path.join(dir, base)` rebuilds one. -/
structure FPath where
  dir : String
  base : String
deriving DecidableEq

/-- Result of a successful `load_dose_grid` call: the decoded float dose
cube (`pixel_array * DoseGridScaling`, flattened) and the dataset. -/
structure LoadedDose where
  doseArray : List ℚ
  ds : DoseDataset

/-- The I/O environment `perform_summation` runs against: the directory
listing (`os.listdir`), the per-file loader (`load_dose_grid`, which may
raise), and the wall-clock timestamp string used in the filename. -/
structure Env where
  listing : String → List String
  load : FPath → Except String LoadedDose
  now : String

/-- What one `perform_summation` call does: `written` is the path passed
to `new_ds.save_as` if that call is reached, `retVal` is the Python
return value of the function. -/
structure SumResult where
  written : Option FPath
  retVal : Option FPath
deriving DecidableEq

/-- The load loop of `perform_summation` (`dose.py` lines 88-95): loads
each file in order, abandoning the patient on the first load error. -/
def loadAll (env : Env) : List FPath → Except String (List LoadedDose)
  | [] => .ok []
  | p :: ps =>
      match env.load p with
      | .error e => .error e
      | .ok d =>
          match loadAll env ps with
          | .error e => .error e
          | .ok ds => .ok (d :: ds)

/-- Model of `perform_summation(rtdose_files, patient_id)` (`dose.py`
lines 71-116). Every `return` in the Python function is a bare `return`
(or falling off the end), so `retVal` is `none` on every path; `written`
records the `save_as` target when the whole pipeline succeeds. -/
def perform_summation (env : Env) (rtdose_files : List FPath)
    (patient_id : String) : SumResult :=
  match rtdose_files with
  | [] => ⟨none, none⟩
  | f0 :: rest0 =>
      -- `if len(rtdose_files) <= 1: return` (an empty list also lands here)
      if (f0 :: rest0).length ≤ 1 then ⟨none, none⟩
      -- `output_dir = os.path.dirname(rtdose_files[0])`, then the skip check
      else if markerHit (env.listing f0.dir) then ⟨none, none⟩
      else
        match loadAll env (f0 :: rest0) with
        | .error _ => ⟨none, none⟩
        -- `if not datasets: return` (unreachable when the loads succeeded)
        | .ok [] => ⟨none, none⟩
        | .ok (d0 :: rest) =>
            match check_same_geometry d0.ds (rest.map (·.ds)) with
            | .error _ => ⟨none, none⟩
            | .ok _ =>
                match create_new_dose_dataset d0.ds
                    (sum_doses ((d0 :: rest).map (·.doseArray)))
                    patient_id env.now with
                | .error _ => ⟨none, none⟩
                | .ok (_, filename) => ⟨some ⟨f0.dir, filename⟩, none⟩

/-- Model of step 2 of `process_patient_directories` (`main.py` lines
153-158): the list of files handed to `send_patient_files` after the
summation step has (or has not) appended its output path. -/
def files_to_send (env : Env) (all_files rtdose_files : List FPath)
    (patient_id : String) : List FPath :=
  if 1 < rtdose_files.length then
    match (perform_summation env rtdose_files patient_id).retVal with
    | some p => all_files ++ [p]
    | none => all_files
  else all_files

end ProKnow

namespace ProKnow

/-! Helper lemmas about `npMax` (the fold modelling `np.max`). -/

lemma le_foldl_max [LinearOrder α] (xs : List α) (i : α) :
    i ≤ xs.foldl max i := by
  induction xs generalizing i with
  | nil => exact le_rfl
  | cons y ys ih => exact le_trans (le_max_left i y) (ih (max i y))

lemma foldl_max_le_of_mem [LinearOrder α] {a : α} {xs : List α} (i : α)
    (h : a ∈ xs) : a ≤ xs.foldl max i := by
  induction xs generalizing i with
  | nil => cases h
  | cons y ys ih =>
      rcases List.mem_cons.mp h with rfl | hmem
      · exact le_trans (le_max_right i a) (le_foldl_max ys (max i a))
      · exact ih (max i y) hmem

lemma foldl_max_mem [LinearOrder α] (xs : List α) (i : α) :
    xs.foldl max i = i ∨ xs.foldl max i ∈ xs := by
  induction xs generalizing i with
  | nil => exact Or.inl rfl
  | cons y ys ih =>
      rcases ih (max i y) with h | h
      · rcases max_choice i y with h2 | h2
        · exact Or.inl (by rw [List.foldl_cons, h, h2])
        · exact Or.inr (by rw [List.foldl_cons, h, h2]; exact List.mem_cons_self y ys)
      · exact Or.inr (List.mem_cons_of_mem y h)

lemma le_npMax_of_mem [LinearOrder α] [Inhabited α] {a : α} {l : List α}
    (h : a ∈ l) : a ≤ npMax l := by
  cases l with
  | nil => cases h
  | cons x xs =>
      rcases List.mem_cons.mp h with rfl | hmem
      · exact le_foldl_max xs a
      · exact foldl_max_le_of_mem x hmem

lemma npMax_mem [LinearOrder α] [Inhabited α] {l : List α} (h : l ≠ []) :
    npMax l ∈ l := by
  cases l with
  | nil => exact absurd rfl h
  | cons x xs =>
      rcases foldl_max_mem xs x with h2 | h2
      · rw [show npMax (x :: xs) = xs.foldl max x from rfl, h2]
        exact List.mem_cons_self x xs
      · exact List.mem_cons_of_mem x h2

lemma npMax_eq_of_mem_of_le [LinearOrder α] [Inhabited α] {m : α} {l : List α}
    (hm : m ∈ l) (hle : ∀ b ∈ l, b ≤ m) : npMax l = m :=
  le_antisymm (hle _ (npMax_mem (List.ne_nil_of_mem hm))) (le_npMax_of_mem hm)

lemma npMax_pos_ne_nil {l : List ℚ} (h : 0 < npMax l) : l ≠ [] := by
  intro hnil
  rw [hnil] at h
  exact absurd h (by norm_num [npMax, default])

end ProKnow

namespace ProKnow

/-! Quantizer lemmas (dose.py lines 54-60). -/

lemma doseScale_pos {field : List ℚ} (h : 0 < npMax field) :
    0 < doseScale field := by
  rw [doseScale, MAX_FIXED_VALUE]
  positivity

lemma truncToZero_of_nonneg {q : ℚ} (h : 0 ≤ q) : truncToZero q = ⌊q⌋ :=
  if_pos h

lemma div_peak_mul_max_eq {field : List ℚ} (x : ℚ) :
    x / npMax field * (MAX_FIXED_VALUE : ℚ) = x / doseScale field := by
  rw [doseScale, div_div_eq_mul_div, div_mul_eq_mul_div]

lemma quantizeBuffer_get (field : List ℚ) (hnn : ∀ x ∈ field, 0 ≤ x)
    (hpk : 0 < npMax field) {i : ℕ} {x : ℚ} (hx : field.get? i = some x) :
    (quantizeBuffer field).get? i = some ⌊x / doseScale field⌋ := by
  have hx0 : 0 ≤ x := hnn x (List.get?_mem hx)
  have harg : 0 ≤ x / npMax field * (MAX_FIXED_VALUE : ℚ) :=
    mul_nonneg (div_nonneg hx0 hpk.le) (Nat.cast_nonneg _)
  rw [quantizeBuffer, List.get?_map, hx, Option.map_some',
    truncToZero_of_nonneg harg, div_peak_mul_max_eq]

end ProKnow

/-- **C1** (corrected): the quantizer truncates instead of rounding: for
every non-negative `SummedField` with positive peak, voxel `i` of the
buffer is `⌊field[i] / scale⌋` with `scale = peak / 65535`, and the
reconstruction `buffer[i] * scale` undershoots `field[i]` by less than one
full quantization step `scale` (not the claimed half step `scale / 2`). -/
theorem ProKnow.quantizer_truncates (field : List ℚ)
    (hnn : ∀ x ∈ field, 0 ≤ x) (hpk : 0 < npMax field)
    (i : ℕ) (x : ℚ) (hx : field.get? i = some x) :
    (quantizeBuffer field).get? i = some ⌊x / doseScale field⌋ ∧
    0 ≤ x - (⌊x / doseScale field⌋ : ℚ) * doseScale field ∧
    x - (⌊x / doseScale field⌋ : ℚ) * doseScale field < doseScale field := by
  have hs : 0 < doseScale field := doseScale_pos hpk
  refine ⟨quantizeBuffer_get field hnn hpk hx, ?_, ?_⟩
  · have h1 : (⌊x / doseScale field⌋ : ℚ) ≤ x / doseScale field := Int.floor_le _
    have h2 := (le_div_iff hs).mp h1
    linarith
  · have h1 : x / doseScale field < (⌊x / doseScale field⌋ : ℚ) + 1 :=
      Int.lt_floor_add_one _
    have h2 := (div_lt_iff hs).mp h1
    have h3 : ((⌊x / doseScale field⌋ : ℚ) + 1) * doseScale field
        = (⌊x / doseScale field⌋ : ℚ) * doseScale field + doseScale field := by
      ring
    linarith

/-- Witness for C1 on the concrete field `[2, 17/10]`, voxel 1. -/
theorem ProKnow.quantizer_truncates_witness :
    (ProKnow.quantizeBuffer [2, 17/10]).get? 1
      = some ⌊(17/10 : ℚ) / ProKnow.doseScale [2, 17/10]⌋ ∧
    0 ≤ (17/10 : ℚ) - (⌊(17/10 : ℚ) / ProKnow.doseScale [2, 17/10]⌋ : ℚ)
        * ProKnow.doseScale [2, 17/10] ∧
    (17/10 : ℚ) - (⌊(17/10 : ℚ) / ProKnow.doseScale [2, 17/10]⌋ : ℚ)
        * ProKnow.doseScale [2, 17/10] < ProKnow.doseScale [2, 17/10] :=
  ProKnow.quantizer_truncates [2, 17/10]
    (by intro x hx; rcases List.mem_cons.mp hx with rfl | hx
        · norm_num
        · rcases List.mem_cons.mp hx with rfl | hx
          · norm_num
          · cases hx)
    (lt_of_lt_of_le (by norm_num)
      (le_foldl_max [17/10] (2 : ℚ)))
    1 (17/10) rfl

namespace ProKnow

/-- Spec-side comparison ("§4.2: exact equality on all seven fields"):
`ds` agrees with the reference `ref` on all seven geometry fields. For
the refinement claims this is compared against the code's `geomMismatch`
disjunction. -/
def sameGeometry (ref ds : DoseDataset) : Prop :=
  ds.Rows = ref.Rows ∧
  ds.Columns = ref.Columns ∧
  ds.NumberOfFrames = ref.NumberOfFrames ∧
  ds.PixelSpacing = ref.PixelSpacing ∧
  ds.ImageOrientationPatient = ref.ImageOrientationPatient ∧
  ds.ImagePositionPatient = ref.ImagePositionPatient ∧
  ds.GridFrameOffsetVector = ref.GridFrameOffsetVector

lemma not_geomMismatch_iff (ref ds : DoseDataset) :
    ¬ geomMismatch ref ds ↔ sameGeometry ref ds := by
  rw [geomMismatch, sameGeometry]
  push_neg
  tauto

lemma checkFrom_ok_iff (ref : DoseDataset) (rest : List DoseDataset) (i : ℕ) :
    checkFrom ref rest i = .ok () ↔ ∀ ds ∈ rest, ¬ geomMismatch ref ds := by
  induction rest generalizing i with
  | nil => simp [checkFrom]
  | cons ds tl ih =>
      by_cases h : geomMismatch ref ds
      · simp only [checkFrom, if_pos h]
        constructor
        · intro he; exact Except.noConfusion he
        · intro hall; exact absurd h (hall ds (List.mem_cons_self ds tl))
      · simp only [checkFrom, if_neg h]
        rw [ih (i + 1)]
        constructor
        · intro hall ds2 hds2
          rcases List.mem_cons.mp hds2 with rfl | hmem
          · exact h
          · exact hall ds2 hmem
        · intro hall ds2 hmem
          exact hall ds2 (List.mem_cons_of_mem ds hmem)

end ProKnow

/-- **C6** (confirmed): `check_same_geometry`, run on a non-empty dataset
list given as reference head and tail, succeeds (returns `.ok ()`, pure —
no input is mutated) if and only if every dataset after the first agrees
with the first on all seven geometry fields (`Rows`, `Columns`,
`NumberOfFrames`, `PixelSpacing`, `ImageOrientationPatient`,
`ImagePositionPatient`, `GridFrameOffsetVector`); in particular a
single-dataset list (empty tail) always succeeds. -/
theorem ProKnow.check_same_geometry_ok_iff (ref : DoseDataset)
    (rest : List DoseDataset) :
    (check_same_geometry ref rest = .ok () ↔ ∀ ds ∈ rest, sameGeometry ref ds)
    ∧ check_same_geometry ref [] = .ok () := by
  constructor
  · rw [check_same_geometry, checkFrom_ok_iff]
    constructor
    · intro hall ds hmem; exact (not_geomMismatch_iff ref ds).mp (hall ds hmem)
    · intro hall ds hmem; exact (not_geomMismatch_iff ref ds).mpr (hall ds hmem)
  · rfl

namespace ProKnow

lemma checkFrom_error_first (ref : DoseDataset) (rest : List DoseDataset)
    (i : ℕ) (h : ∃ ds ∈ rest, geomMismatch ref ds) :
    ∃ ds, rest[rest.findIdx fun d => decide (geomMismatch ref d)]? = some ds ∧
      checkFrom ref rest i =
        .error (mismatchMsg
          (i + rest.findIdx (fun d => decide (geomMismatch ref d)) + 1)
          ds.filename) := by
  induction rest generalizing i with
  | nil => obtain ⟨ds, hm, _⟩ := h; cases hm
  | cons d tl ih =>
      by_cases hd : geomMismatch ref d
      · have hdec : decide (geomMismatch ref d) = true := decide_eq_true hd
        refine ⟨d, ?_, ?_⟩
        · rw [List.findIdx_cons, hdec, Bool.cond_true]
          exact List.getElem?_cons_zero
        · rw [List.findIdx_cons, hdec, Bool.cond_true]
          show (if geomMismatch ref d then _ else _) = _
          rw [if_pos hd]
      · have hdec : decide (geomMismatch ref d) = false := decide_eq_false hd
        have htl : ∃ ds ∈ tl, geomMismatch ref ds := by
          obtain ⟨ds, hm, hmm⟩ := h
          rcases List.mem_cons.mp hm with rfl | hmem
          · exact absurd hmm hd
          · exact ⟨ds, hmem, hmm⟩
        obtain ⟨ds, hget, herr⟩ := ih (i + 1) htl
        refine ⟨ds, ?_, ?_⟩
        · rw [List.findIdx_cons, hdec, Bool.cond_false, List.getElem?_cons_succ]
          exact hget
        · rw [List.findIdx_cons, hdec, Bool.cond_false]
          show (if geomMismatch ref d then _ else _) = _
          rw [if_neg hd, herr]
          have harith :
              i + 1 + List.findIdx (fun d => decide (geomMismatch ref d)) tl + 1
              = i + (List.findIdx (fun d => decide (geomMismatch ref d)) tl + 1)
                + 1 := by omega
          rw [harith]

end ProKnow

/-- **C3** (corrected, amended part): whenever some dataset in the tail
mismatches the reference in at least one of the seven geometry fields,
`check_same_geometry` raises a `ValueError` whose message identifies the
1-based position of the first offending dataset in the full file list
(`findIdx + 2`, since the tail starts at position 2) together with that
dataset's filename — but not the name of the mismatching field. -/
theorem ProKnow.check_same_geometry_first_mismatch (ref : DoseDataset)
    (rest : List DoseDataset) (h : ∃ ds ∈ rest, geomMismatch ref ds) :
    ∃ ds, rest[rest.findIdx fun d => decide (geomMismatch ref d)]? = some ds ∧
      check_same_geometry ref rest =
        .error (mismatchMsg
          (rest.findIdx (fun d => decide (geomMismatch ref d)) + 2)
          ds.filename) := by
  obtain ⟨ds, hget, herr⟩ := checkFrom_error_first ref rest 1 h
  refine ⟨ds, hget, ?_⟩
  rw [check_same_geometry, herr]
  congr 2
  omega

namespace ProKnow

/-- Concrete reference geometry used in counterexamples and witnesses. -/
def refD : DoseDataset :=
  ⟨2, 3, 4, [1, 1], [1, 0, 0, 0, 1, 0], [0, 0, 0], [0, 1], "ref.dcm"⟩

/-- Copy of `refD` mismatching only in `Rows`. -/
def dsRows : DoseDataset := { refD with Rows := 5, filename := "a.dcm" }

/-- Copy of `refD` mismatching only in `Columns`. -/
def dsCols : DoseDataset := { refD with Columns := 5, filename := "a.dcm" }

end ProKnow

/-- **C3** counterexample: two validation runs whose single mismatching
field differs (`Rows` in one, `Columns` in the other) raise errors with
the very same diagnostic message, so the diagnostic cannot identify the
name of the mismatching field (it only carries the file position and
filename). -/
theorem ProKnow.geometry_error_does_not_name_field :
    dsRows.Rows ≠ refD.Rows ∧ dsRows.Columns = refD.Columns ∧
    dsCols.Columns ≠ refD.Columns ∧ dsCols.Rows = refD.Rows ∧
    check_same_geometry refD [dsRows] = .error (mismatchMsg 2 "a.dcm") ∧
    check_same_geometry refD [dsCols] = .error (mismatchMsg 2 "a.dcm") := by
  have hA : geomMismatch refD dsRows := by decide
  have hB : geomMismatch refD dsCols := by decide
  refine ⟨by decide, by decide, by decide, by decide, ?_, ?_⟩
  · simp only [check_same_geometry, checkFrom, if_pos hA]
    rfl
  · simp only [check_same_geometry, checkFrom, if_pos hB]
    rfl

/-- Witness for C3 (amended theorem) on `refD` against `[dsRows]`. -/
theorem ProKnow.check_same_geometry_first_mismatch_witness :
    ∃ ds, [dsRows][[dsRows].findIdx fun d => decide (geomMismatch refD d)]?
        = some ds ∧
      check_same_geometry refD [dsRows] =
        .error (mismatchMsg
          ([dsRows].findIdx (fun d => decide (geomMismatch refD d)) + 2)
          ds.filename) :=
  check_same_geometry_first_mismatch refD [dsRows]
    ⟨dsRows, List.mem_cons_self dsRows [], by decide⟩

/-- **C1** counterexample: on the field `[2, 17/10]` the code's buffer at
voxel 1 is `55704` (truncation of `55704.75`), which is not the claimed
`round(field[i] / scale) = 55705`, and its reconstruction error exceeds
the claimed bound `scale / 2`. -/
theorem ProKnow.quantizer_not_round :
    quantizeBuffer [2, 17/10] = [65535, 55704] ∧
    doseScale [2, 17/10] = 2 / 65535 ∧
    round ((17/10 : ℚ) / (2 / 65535)) ≠ (55704 : ℤ) ∧
    ¬ (|(55704 : ℚ) * (2 / 65535) - 17/10| ≤ (2 / 65535) / 2) := by
  have hmax : npMax [(2 : ℚ), 17/10] = 2 := by
    show List.foldl max 2 [17/10] = 2
    rw [List.foldl_cons, List.foldl_nil]
    exact max_eq_left (by norm_num)
  refine ⟨?_, ?_, ?_, ?_⟩
  · rw [quantizeBuffer, hmax]
    norm_num [truncToZero, MAX_FIXED_VALUE]
  · rw [doseScale, hmax, MAX_FIXED_VALUE]
    norm_num
  · rw [round_eq]
    norm_num
  · rw [abs_of_nonpos (by norm_num)]
    norm_num

/-- **C4** (confirmed): `create_new_dose_dataset` raises the all-zeros
`ValueError` if and only if the peak `np.max` of the summed field is
zero; an all-zero (non-empty) field always raises it, and a field with
positive peak never does. -/
theorem ProKnow.zero_dose_error_iff (reference_ds : DoseDataset)
    (field : List ℚ) (pid ts : String) (hne : field ≠ []) :
    ((∃ e, create_new_dose_dataset reference_ds field pid ts = .error e)
        ↔ npMax field = 0)
    ∧ ((∀ x ∈ field, x = 0) →
        ∃ e, create_new_dose_dataset reference_ds field pid ts = .error e)
    ∧ (0 < npMax field →
        ∃ out, create_new_dose_dataset reference_ds field pid ts = .ok out) := by
  have hiff : (∃ e, create_new_dose_dataset reference_ds field pid ts = .error e)
      ↔ npMax field = 0 := by
    constructor
    · rintro ⟨e, he⟩
      by_contra hmax
      rw [create_new_dose_dataset, if_neg hmax] at he
      exact Except.noConfusion he
    · intro hmax
      exact ⟨_, by rw [create_new_dose_dataset, if_pos hmax]⟩
  refine ⟨hiff, ?_, ?_⟩
  · intro hz
    exact hiff.mpr (hz _ (npMax_mem hne))
  · intro hpos
    exact ⟨_, by rw [create_new_dose_dataset, if_neg (ne_of_gt hpos)]⟩

/-- Witness for C4 on the all-zero field `[0, 0]`. -/
theorem ProKnow.zero_dose_error_iff_witness :
    ((∃ e, create_new_dose_dataset refD [0, 0] "p" "t" = .error e)
        ↔ npMax [(0 : ℚ), 0] = 0)
    ∧ ((∀ x ∈ [(0 : ℚ), 0], x = 0) →
        ∃ e, create_new_dose_dataset refD [0, 0] "p" "t" = .error e)
    ∧ (0 < npMax [(0 : ℚ), 0] →
        ∃ out, create_new_dose_dataset refD [0, 0] "p" "t" = .ok out) :=
  zero_dose_error_iff refD [0, 0] "p" "t" (by simp)

/-- **C5** (confirmed): for every non-negative field with positive peak,
the quantized buffer attains the full dynamic range: its maximum is
exactly `MAX_FIXED_VALUE = 65535` (every peak voxel maps there, and no
voxel maps above). -/
theorem ProKnow.quantizer_full_range (field : List ℚ)
    (hnn : ∀ x ∈ field, 0 ≤ x) (hpk : 0 < npMax field) :
    npMax (quantizeBuffer field) = (MAX_FIXED_VALUE : ℤ) := by
  have hne : field ≠ [] := npMax_pos_ne_nil hpk
  have hp0 : npMax field ≠ 0 := ne_of_gt hpk
  apply npMax_eq_of_mem_of_le
  · rw [quantizeBuffer]
    refine List.mem_map.mpr ⟨npMax field, npMax_mem hne, ?_⟩
    rw [div_self hp0, one_mul, truncToZero_of_nonneg (Nat.cast_nonneg _)]
    exact Int.floor_natCast _
  · intro b hb
    rw [quantizeBuffer] at hb
    obtain ⟨x, hxm, rfl⟩ := List.mem_map.mp hb
    have hx0 := hnn x hxm
    have hxle : x ≤ npMax field := le_npMax_of_mem hxm
    have harg0 : 0 ≤ x / npMax field * (MAX_FIXED_VALUE : ℚ) :=
      mul_nonneg (div_nonneg hx0 hpk.le) (Nat.cast_nonneg _)
    rw [truncToZero_of_nonneg harg0]
    have hle : x / npMax field * (MAX_FIXED_VALUE : ℚ) ≤ (MAX_FIXED_VALUE : ℚ) := by
      have hdiv : x / npMax field ≤ 1 := (div_le_one hpk).mpr hxle
      calc x / npMax field * (MAX_FIXED_VALUE : ℚ)
          ≤ 1 * (MAX_FIXED_VALUE : ℚ) :=
            mul_le_mul_of_nonneg_right hdiv (Nat.cast_nonneg _)
        _ = (MAX_FIXED_VALUE : ℚ) := one_mul _
    calc ⌊x / npMax field * (MAX_FIXED_VALUE : ℚ)⌋
        ≤ ⌊((MAX_FIXED_VALUE : ℕ) : ℚ)⌋ := Int.floor_le_floor hle
      _ = (MAX_FIXED_VALUE : ℤ) := Int.floor_natCast _

/-- Witness for C5 on the field `[1, 3]`. -/
theorem ProKnow.quantizer_full_range_witness :
    npMax (quantizeBuffer [1, 3]) = (MAX_FIXED_VALUE : ℤ) :=
  quantizer_full_range [1, 3]
    (by intro x hx; simp at hx; rcases hx with rfl | rfl <;> norm_num)
    (lt_of_lt_of_le (by norm_num) (le_foldl_max [3] (1 : ℚ)))

/-- **C7** (confirmed): on two equally-shaped fields `sum_doses [a, b]`
is the element-wise sum `zipWith (+) a b`, and the result does not
depend on the list order. -/
theorem ProKnow.sum_doses_pair (a b : List ℚ) (hlen : a.length = b.length) :
    sum_doses [a, b] = List.zipWith (· + ·) a b ∧
    sum_doses [a, b] = sum_doses [b, a] := by
  constructor
  · rfl
  · show List.zipWith (· + ·) a b = List.zipWith (· + ·) b a
    exact List.zipWith_comm_of_comm (· + ·) add_comm a b

/-- Witness for C7 on `[1, 2]` and `[3, 4]`. -/
theorem ProKnow.sum_doses_pair_witness :
    sum_doses [[1, 2], [3, 4]] = List.zipWith (· + ·) [1, 2] [3, 4] ∧
    sum_doses [[(1 : ℚ), 2], [3, 4]] = sum_doses [[3, 4], [1, 2]] :=
  sum_doses_pair [1, 2] [3, 4] rfl

namespace ProKnow

/-! String lemmas for the "summed" marker. -/

lemma listStartsWith_append {sub l : List Char} (r : List Char)
    (h : listStartsWith sub l = true) :
    listStartsWith sub (l ++ r) = true := by
  induction sub generalizing l with
  | nil => rfl
  | cons a as ih =>
      cases l with
      | nil => exact absurd h (by simp [listStartsWith])
      | cons b bs =>
          rw [List.cons_append]
          simp only [listStartsWith, Bool.and_eq_true] at h ⊢
          exact ⟨h.1, ih h.2⟩

lemma listContains_nil_sub (r : List Char) : listContains [] r = true := by
  cases r <;> simp [listContains, listStartsWith]

lemma listContains_append_left {sub l : List Char} (r : List Char)
    (h : listContains sub l = true) :
    listContains sub (l ++ r) = true := by
  induction l with
  | nil =>
      cases sub with
      | nil => exact listContains_nil_sub r
      | cons a as => exact absurd h (by simp [listContains, listStartsWith])
  | cons c tl ih =>
      rw [List.cons_append]
      simp only [listContains, Bool.or_eq_true] at h ⊢
      rcases h with h1 | h2
      · exact Or.inl (by
          have := listStartsWith_append (l := c :: tl) r h1
          rwa [List.cons_append] at this)
      · exact Or.inr (ih h2)

lemma marker_in_mkSummedFilename (pid ts : String) :
    strContains "summed" (strLower (mkSummedFilename pid ts)) = true := by
  show listContains "summed".data
      ((("RD_SummedDose_" ++ pid ++ "_" ++ ts ++ ".dcm").data).map Char.toLower)
      = true
  rw [String.data_append, String.data_append, String.data_append,
    String.data_append, List.map_append, List.map_append, List.map_append,
    List.map_append, List.append_assoc, List.append_assoc, List.append_assoc]
  exact listContains_append_left _ (by decide)

end ProKnow

namespace ProKnow

/-- Inversion of a successful `perform_summation` run: a path is passed to
`save_as` only when the full pipeline (length check, skip check, loads,
geometry validation, quantization) succeeded, and that path is the first
input file's directory joined with the summed-dose filename. -/
lemma perform_summation_written_inv (env : Env) (files : List FPath)
    (pid : String) (p : FPath)
    (h : (perform_summation env files pid).written = some p) :
    ∃ f0 rest0 d0 rest,
      files = f0 :: rest0 ∧
      markerHit (env.listing f0.dir) = false ∧
      loadAll env files = .ok (d0 :: rest) ∧
      check_same_geometry d0.ds (rest.map (·.ds)) = .ok () ∧
      (∃ nd, create_new_dose_dataset d0.ds
          (sum_doses ((d0 :: rest).map (·.doseArray))) pid env.now
          = .ok (nd, p.base)) ∧
      p = ⟨f0.dir, mkSummedFilename pid env.now⟩ := by
  cases files with
  | nil => simp [perform_summation] at h
  | cons f0 rest0 =>
      simp only [perform_summation] at h
      by_cases h1 : (f0 :: rest0).length ≤ 1
      · rw [if_pos h1] at h
        simp at h
      rw [if_neg h1] at h
      by_cases h2 : markerHit (env.listing f0.dir) = true
      · rw [if_pos h2] at h
        simp at h
      rw [if_neg h2] at h
      split at h
      · simp at h
      · simp at h
      · rename_i d0 rest hload
        split at h
        · simp at h
        · rename_i u hgeo
          cases u
          split at h
          · simp at h
          · rename_i nd fn hcr
            simp only [Option.some.injEq] at h
            have hfn : mkSummedFilename pid env.now = fn := by
              by_cases hmax : npMax (sum_doses
                  ((d0 :: rest).map (·.doseArray))) = 0
              · rw [create_new_dose_dataset, if_pos hmax] at hcr
                exact Except.noConfusion hcr
              · rw [create_new_dose_dataset, if_neg hmax] at hcr
                injection hcr with h3
                exact ((Prod.mk.injEq _ _ _ _).mp h3).2
            refine ⟨f0, rest0, d0, rest, rfl, by simpa using h2,
              hload, hgeo, ⟨nd, ?_⟩, ?_⟩
            · rw [← h, hcr]
            · rw [← h, hfn]

end ProKnow

namespace ProKnow

/-- Every `return` in `perform_summation` is a bare `return` (or falling
off the end), so the Python return value is `None` on every path —
including the successful one. -/
lemma perform_summation_retVal_none (env : Env) (files : List FPath)
    (pid : String) : (perform_summation env files pid).retVal = none := by
  cases files with
  | nil => rfl
  | cons f0 rest0 =>
      simp only [perform_summation]
      repeat' split
      all_goals rfl

/-- When the skip marker is found, `perform_summation` writes nothing and
returns `None`. -/
lemma perform_summation_skip (env : Env) (f0 : FPath) (rest0 : List FPath)
    (pid : String) (hlen : ¬ ((f0 :: rest0).length ≤ 1))
    (hmark : markerHit (env.listing f0.dir) = true) :
    perform_summation env (f0 :: rest0) pid = ⟨none, none⟩ := by
  simp only [perform_summation]
  rw [if_neg hlen, if_pos hmark]

/-- Forward evaluation of `perform_summation` when every stage succeeds. -/
lemma perform_summation_eq_of_success (env : Env) (f0 : FPath)
    (rest0 : List FPath) (pid : String) (d0 : LoadedDose)
    (rest : List LoadedDose) (nd : NewDose) (fn : String)
    (hlen : ¬ ((f0 :: rest0).length ≤ 1))
    (hmark : markerHit (env.listing f0.dir) = false)
    (hload : loadAll env (f0 :: rest0) = .ok (d0 :: rest))
    (hgeo : check_same_geometry d0.ds (rest.map (·.ds)) = .ok ())
    (hcr : create_new_dose_dataset d0.ds
        (sum_doses ((d0 :: rest).map (·.doseArray))) pid env.now
        = .ok (nd, fn)) :
    perform_summation env (f0 :: rest0) pid = ⟨some ⟨f0.dir, fn⟩, none⟩ := by
  simp only [perform_summation]
  rw [if_neg hlen, if_neg (by simp [hmark])]
  split
  · rename_i e heq
    rw [hload] at heq
    exact Except.noConfusion heq
  · rename_i heq
    rw [hload] at heq
    simp at heq
  · rename_i d0h resth heq
    rw [hload] at heq
    injection heq with h5
    injection h5 with h6 h7
    subst h6
    subst h7
    split
    · rename_i e heq2
      rw [hgeo] at heq2
      exact Except.noConfusion heq2
    · rename_i u heq2
      split
      · rename_i e heq3
        rw [hcr] at heq3
        exact Except.noConfusion heq3
      · rename_i ndh fnh heq3
        rw [hcr] at heq3
        injection heq3 with h8
        injection h8 with h9 h10
        subst h10
        rfl

end ProKnow

/-- **C9** (confirmed): a path reaches the `save_as` call only when the
loads, the geometry validation and the dataset construction (including
quantization) have all succeeded; any earlier failure leaves `written`
empty, so an aborted patient never gets an artifact. -/
theorem ProKnow.written_requires_success (env : Env) (files : List FPath)
    (pid : String)
    (h : ((perform_summation env files pid).written).isSome = true) :
    ∃ d0 rest, loadAll env files = .ok (d0 :: rest) ∧
      check_same_geometry d0.ds (rest.map (·.ds)) = .ok () ∧
      ∃ out, create_new_dose_dataset d0.ds
          (sum_doses ((d0 :: rest).map (·.doseArray))) pid env.now
          = .ok out := by
  obtain ⟨p, hp⟩ := Option.isSome_iff_exists.mp h
  obtain ⟨f0, rest0, d0, rest, _, _, hload, hgeo, ⟨nd, hcr⟩, _⟩ :=
    perform_summation_written_inv env files pid p hp
  exact ⟨d0, rest, hload, hgeo, ⟨(nd, p.base), hcr⟩⟩

namespace ProKnow

/-- Geometry of `refD` with a given filename — all loads in the concrete
success scenario share it. -/
def geomOK (name : String) : DoseDataset := { refD with filename := name }

/-- Concrete environment in which the whole pipeline succeeds:
two loadable files with identical geometry and positive doses, and no
prior summed artifact in the directory listing. -/
def envOK : Env :=
  { listing := fun _ => ["a.dcm", "b.dcm"]
    load := fun p => .ok ⟨[1, 2], geomOK p.base⟩
    now := "20250101_000000" }

/-- The two RTDOSE paths of the concrete success scenario. -/
def filesAB : List FPath := [⟨"pat1", "a.dcm"⟩, ⟨"pat1", "b.dcm"⟩]

/-- The artifact path the concrete success scenario writes. -/
def pathK : FPath := ⟨"pat1", mkSummedFilename "P1" "20250101_000000"⟩

/-- Concrete evaluation: in `envOK` the summation for `filesAB` succeeds,
writes `pathK`, and still returns `None`. -/
lemma perform_envOK :
    perform_summation envOK filesAB "P1" = ⟨some pathK, none⟩ := by
  have hmax : npMax (sum_doses [[(1 : ℚ), 2], [1, 2]]) ≠ 0 := by
    show List.foldl max ((1 : ℚ) + 1) [2 + 2] ≠ 0
    rw [List.foldl_cons, List.foldl_nil,
      max_eq_right (by norm_num : (1 : ℚ) + 1 ≤ 2 + 2)]
    norm_num
  have hcr : create_new_dose_dataset (geomOK "a.dcm")
      (sum_doses [[(1 : ℚ), 2], [1, 2]]) "P1" "20250101_000000"
      = .ok (⟨geomOK "a.dcm", "Summed Dose",
          quantizeBuffer (sum_doses [[(1 : ℚ), 2], [1, 2]]),
          doseScale (sum_doses [[(1 : ℚ), 2], [1, 2]])⟩,
        mkSummedFilename "P1" "20250101_000000") := by
    rw [create_new_dose_dataset, if_neg hmax]
  have hgeo : check_same_geometry (geomOK "a.dcm") [geomOK "b.dcm"]
      = .ok () := by
    have hnm : ¬ geomMismatch (geomOK "a.dcm") (geomOK "b.dcm") := by
      simp [geomMismatch, geomOK]
    simp only [check_same_geometry, checkFrom, if_neg hnm]
  have hload : loadAll envOK filesAB
      = .ok [⟨[1, 2], geomOK "a.dcm"⟩, ⟨[1, 2], geomOK "b.dcm"⟩] := rfl
  exact perform_summation_eq_of_success envOK ⟨"pat1", "a.dcm"⟩
    [⟨"pat1", "b.dcm"⟩] "P1" ⟨[1, 2], geomOK "a.dcm"⟩
    [⟨[1, 2], geomOK "b.dcm"⟩] _ (mkSummedFilename "P1" "20250101_000000")
    (by decide) (by decide) hload hgeo hcr

end ProKnow

/-- **C2** (code bug): `perform_summation` returns `None` on every path —
its Python body never returns the output path — so the orchestration in
`main.py` never appends the summed artifact to the list handed to
`send_patient_files`, even in a run (`envOK`, `filesAB`) where the
summation succeeds and the artifact `pathK` is written. -/
theorem ProKnow.summed_path_never_returned :
    (∀ env files pid, (perform_summation env files pid).retVal = none) ∧
    (∀ env all_files files pid,
        files_to_send env all_files files pid = all_files) ∧
    (perform_summation envOK filesAB "P1").written = some pathK := by
  refine ⟨perform_summation_retVal_none, ?_, ?_⟩
  · intro env all_files files pid
    rw [files_to_send, perform_summation_retVal_none env files pid]
    split <;> rfl
  · rw [perform_envOK]

/-- **C8** (confirmed): the filename a successful run writes contains the
`"summed"` marker the skip check looks for (case-insensitively), so a
second run over the same directory — whose listing now contains that
filename — takes the skip branch and writes no second artifact. -/
theorem ProKnow.second_run_skips (env₁ env₂ : Env) (files₁ : List FPath)
    (f0 : FPath) (rest₂ : List FPath) (pid : String) (p : FPath)
    (h1 : (perform_summation env₁ files₁ pid).written = some p)
    (hdir : f0.dir = p.dir)
    (hmem : p.base ∈ env₂.listing f0.dir)
    (hne : rest₂ ≠ []) :
    perform_summation env₂ (f0 :: rest₂) pid = ⟨none, none⟩ := by
  obtain ⟨g0, r0, d0, rest, _, _, _, _, _, hp⟩ :=
    perform_summation_written_inv env₁ files₁ pid p h1
  have hbase : p.base = mkSummedFilename pid env₁.now := by rw [hp]
  have hmark : markerHit (env₂.listing f0.dir) = true := by
    rw [markerHit, List.any_eq_true]
    refine ⟨p.base, hmem, ?_⟩
    rw [hbase]
    exact marker_in_mkSummedFilename pid env₁.now
  have hlen : ¬ ((f0 :: rest₂).length ≤ 1) := by
    cases rest₂ with
    | nil => exact absurd rfl hne
    | cons a l =>
        intro hcon
        rw [List.length_cons, List.length_cons] at hcon
        omega
  exact perform_summation_skip env₂ f0 rest₂ pid hlen hmark

namespace ProKnow

/-- Environment of the second run: the directory listing now contains the
artifact written by the first run in `envOK`. -/
def env2K : Env :=
  { listing := fun _ =>
      [mkSummedFilename "P1" "20250101_000000", "a.dcm", "b.dcm"]
    load := envOK.load
    now := "20250102_000000" }

end ProKnow

/-- Witness for C8: the second run over the same patient directory skips. -/
theorem ProKnow.second_run_skips_witness :
    perform_summation env2K (⟨"pat1", "a.dcm"⟩ :: [⟨"pat1", "b.dcm"⟩]) "P1"
      = ⟨none, none⟩ :=
  second_run_skips envOK env2K filesAB ⟨"pat1", "a.dcm"⟩ [⟨"pat1", "b.dcm"⟩]
    "P1" pathK (by rw [perform_envOK]) rfl
    (by simp [env2K, pathK]) (by simp)

/-- Witness for C9 in the concrete success environment. -/
theorem ProKnow.written_requires_success_witness :
    ∃ d0 rest, loadAll envOK filesAB = .ok (d0 :: rest) ∧
      check_same_geometry d0.ds (rest.map (·.ds)) = .ok () ∧
      ∃ out, create_new_dose_dataset d0.ds
          (sum_doses ((d0 :: rest).map (·.doseArray))) "P1" envOK.now
          = .ok out :=
  written_requires_success envOK filesAB "P1" (by simp [perform_envOK])

/-- **C10** (confirmed): both uses of the destination directory agree
with the directory of the first input path: any written artifact lands in
`files[0].dir`, and the skip check consults the listing of that same
directory (a marker there makes the run a no-op). -/
theorem ProKnow.summation_uses_first_file_dir (env : Env) (f0 : FPath)
    (rest0 : List FPath) (pid : String) :
    (∀ p, (perform_summation env (f0 :: rest0) pid).written = some p →
        p.dir = f0.dir) ∧
    (markerHit (env.listing f0.dir) = true → ¬ ((f0 :: rest0).length ≤ 1) →
        perform_summation env (f0 :: rest0) pid = ⟨none, none⟩) := by
  constructor
  · intro p hp
    obtain ⟨g0, r0, d0, rest, hcons, _, _, _, _, hpe⟩ :=
      perform_summation_written_inv env (f0 :: rest0) pid p hp
    have hg0 : g0 = f0 := by
      injection hcons with hh1 hh2
      exact hh1.symm
    rw [hpe, hg0]
  · intro hmark hlen
    exact perform_summation_skip env f0 rest0 pid hlen hmark

/-- Witness for C10: the artifact of the concrete successful run lands in
the first input file's directory. -/
theorem ProKnow.summation_uses_first_file_dir_witness :
    pathK.dir = (⟨"pat1", "a.dcm"⟩ : FPath).dir :=
  (summation_uses_first_file_dir envOK ⟨"pat1", "a.dcm"⟩
    [⟨"pat1", "b.dcm"⟩] "P1").1 pathK
    (show (perform_summation envOK filesAB "P1").written = some pathK by
      rw [perform_envOK])
